import Mathlib

/-!
Verification of the container-registry core (`main.go`,
`internal/registry/registry.go`) against its natural-language
specification.

The Go code is shallowly embedded: byte streams become `List Nat`,
the on-disk tree under `testdata/<name>` becomes an association list
from directory names (upload ids, digest strings, tags) to directories,
and each HTTP handler becomes a pure function from that state to a new
state plus an outcome (a response or a classified error).  Parts of the
repository that are not in the sources at hand (the `internal/errors`
and `internal/grammar` packages and the router's no-route behaviour) are
modelled from the specification and marked as such.  External library
behaviour (`go-digest` parsing, `filetype` archive sniffing,
`ioutil.ReadDir` sorting) is modelled from those libraries'
documented contracts.
-/

namespace CR

/-- A byte stream; each element stands for one byte of the request or
file body (the handlers never inspect numeric values beyond the sniffed
magic numbers, so no mod-256 arithmetic arises). -/
abbrev Bytes := List Nat

/-- One file inside a directory: the `os.FileInfo` view (`Name()`) plus
the file's content (whose length is `Size()`). -/
structure FileEntry where
  name : String
  content : Bytes
deriving Repr, DecidableEq

/-- A directory: the list of files it holds, in creation order (the
embedding of `ioutil.ReadDir` sorts it by name, as the Go function
documents). -/
abbrev Dir := List FileEntry

/-- The on-disk state under `testdata/<name>` for one repository:
directory name (upload id, digest string or tag) mapped to its files.
`PathJoinWithBase` (below) shows all three kinds of directory really do
live under the same parent, which justifies the single key space. -/
abbrev FS := List (String × Dir)

/-- Go `filepath.Ext`: the suffix starting at the final dot of the final
element, empty when there is no dot.  Helper on the character list. -/
def extAux : List Char → Option (List Char)
  | [] => none
  | c :: cs =>
    match extAux cs with
    | some e => some e
    | none => if c = '.' then some (c :: cs) else none

/-- Go `filepath.Ext` on a bare file name (the handlers only apply it to
names without path separators). -/
def filepathExt (s : String) : String :=
  match extAux s.data with
  | some e => String.mk e
  | none => ""

/-- Split a character list at its first colon, as
`strings.IndexRune(s, ':')` does in `go-digest`'s parser. -/
def splitColon : List Char → Option (List Char × List Char)
  | [] => none
  | c :: cs =>
    if c = ':' then some ([], cs)
    else
      match splitColon cs with
      | some (a, b) => some (c :: a, b)
      | none => none

/-- Lowercase-hex test used by `go-digest`'s `Algorithm.Validate`. -/
def isLowerHexChar (c : Char) : Bool :=
  ('0' ≤ c && c ≤ '9') || ('a' ≤ c && c ≤ 'f')

/-- The hex length `go-digest` expects for each registered algorithm
(`sha256`, `sha384`, `sha512`); `none` for unregistered algorithms. -/
def algoHexLen (a : String) : Option Nat :=
  if a = "sha256" then some 64
  else if a = "sha384" then some 96
  else if a = "sha512" then some 128
  else none

/-- `digest.Parse` from the `go-digest` dependency: the string must be
`<algorithm>:<encoded>` with a registered algorithm and an encoded part
that is lowercase hex of exactly the algorithm's length.  On success the
parsed digest's `String()` is the input itself, which is what the
handlers use. -/
def parseDigest (s : String) : Option String :=
  match splitColon s.data with
  | none => none
  | some (algoCs, encCs) =>
    match algoHexLen (String.mk algoCs) with
    | none => none
    | some len =>
      if encCs.length = len && encCs.all isLowerHexChar then some s else none

/-- `registry.BasePath`. -/
def BasePath : String := "testdata"

/-- Go `filepath.Join` restricted to the clean, nonempty, relative
components the registry passes it (no `.`/`..`/empty segments, so
`Clean` is the identity on the joined string). -/
def pathJoin (parts : List String) : String :=
  String.intercalate "/" parts

/-- `registry.PathJoinWithBase`: joins the base path, the repository
name and any further elements into a single path. -/
def PathJoinWithBase (name : String) (p : List String) : String :=
  pathJoin (BasePath :: name :: p)

/-- The directory `PushBlobPatch` writes into for a reference
(`registry.PathJoinWithBase(name, reference)` in `main.go`). -/
def uploadSessionPath (name reference : String) : String :=
  PathJoinWithBase name [reference]

/-- The directory `PullingBlobs`/`PushBlobPut`/`PushBlobHead` use for a
digest (`registry.PathJoinWithBase(name, dgst.String())` in `main.go`). -/
def blobDirPath (name digestStr : String) : String :=
  PathJoinWithBase name [digestStr]

/-- The directory `PushManifestPut` writes `manifest.json` into
(`registry.PathJoinWithBase(name, tag)` in `main.go`). -/
def tagDirPath (name tag : String) : String :=
  PathJoinWithBase name [tag]

/-- Go `strings.HasSuffix`, on character lists. -/
def endsWithL (s suf : List Char) : Bool :=
  suf.reverse.isPrefixOf s.reverse

/-- Gzip magic `1F 8B 08`, from the `filetype` dependency's matcher. -/
def isGzipMagic (buf : Bytes) : Bool :=
  [0x1f, 0x8b, 0x08].isPrefixOf buf

/-- Xz magic `FD 37 7A 58 5A 00`. -/
def isXzMagic (buf : Bytes) : Bool :=
  [0xfd, 0x37, 0x7a, 0x58, 0x5a, 0x00].isPrefixOf buf

/-- Zstd magic `28 B5 2F FD`. -/
def isZstdMagic (buf : Bytes) : Bool :=
  [0x28, 0xb5, 0x2f, 0xfd].isPrefixOf buf

/-- Zip magic `50 4B 03 04`. -/
def isZipMagic (buf : Bytes) : Bool :=
  [0x50, 0x4b, 0x03, 0x04].isPrefixOf buf

/-- Tar: the string `ustar` at offset 257. -/
def isTarMagic (buf : Bytes) : Bool :=
  [0x75, 0x73, 0x74, 0x61, 0x72].isPrefixOf (buf.drop 257)

/-- `filetype.IsArchive` from the `h2non/filetype` dependency,
restricted to the archive magics the specification names (gzip, xz,
zstd, tar, zip); the claims hold for any prefix predicate. -/
def isArchive (buf : Bytes) : Bool :=
  isGzipMagic buf || isXzMagic buf || isZstdMagic buf ||
    isZipMagic buf || isTarMagic buf

/-- The 8192-byte buffer `CreateLayer` fills with a single `Read`: the
first `min 8192 |body|` bytes of the stream, zero beyond that (Go's
`make([]byte, 8192)` zero-initialises, and `detectExt` receives the
whole buffer, not just the filled part). -/
def bufferRead (body : Bytes) : Bytes :=
  body.take 8192 ++ List.replicate (8192 - body.length) 0

/-- `registry.detectExt`: archive sniff decides the stored extension. -/
def detectExt (buf : Bytes) : String :=
  if isArchive buf then ".tar.gz" else ".json"

/-- The file name `CreateLayer` stores a body under. -/
def layerFileName (body : Bytes) : String :=
  "layer" ++ detectExt (bufferRead body)

/-- `registry.PredictDockerContentType`: content type from the stored
file's extension. -/
def PredictDockerContentType (filename : String) : String :=
  if filepathExt filename = ".json" then
    "application/vnd.docker.distribution.manifest.v2+json"
  else
    "application/vnd.docker.image.rootfs.diff.tar.gzip"

/-- Directory lookup by name under the repository root (`os.Stat` /
`ioutil.ReadDir` existence check). -/
def FS.lookup : FS → String → Option Dir
  | [], _ => none
  | (k, d) :: fs, key => if k = key then some d else FS.lookup fs key

/-- Replace the contents of an existing directory. -/
def FS.setDir : FS → String → Dir → FS
  | [], _, _ => []
  | (k, d) :: fs, key, d' =>
    if k = key then (k, d') :: fs else (k, d) :: FS.setDir fs key d'

/-- Drop a directory from the tree (`os.Remove` on an empty dir). -/
def FS.eraseKey : FS → String → FS
  | [], _ => []
  | (k, d) :: fs, key => if k = key then fs else (k, d) :: FS.eraseKey fs key

/-- `os.MkdirAll`: create the directory if absent, otherwise no-op. -/
def FS.mkdirAll (fs : FS) (key : String) : FS :=
  match fs.lookup key with
  | some _ => fs
  | none => (key, []) :: fs

/-- `os.Remove(dir)` with its error ignored, as in `PushBlobPut`:
removes the directory only when it exists and is empty. -/
def FS.removeDirIfEmpty (fs : FS) (key : String) : FS :=
  match fs.lookup key with
  | some [] => fs.eraseKey key
  | _ => fs

/-- `os.Create` inside a directory: truncate an existing file of that
name or add a new one. -/
def Dir.write : Dir → String → Bytes → Dir
  | [], fname, c => [⟨fname, c⟩]
  | e :: es, fname, c =>
    if e.name = fname then ⟨fname, c⟩ :: es else e :: Dir.write es fname c

/-- Remove a file from a directory (the source half of `os.Rename`). -/
def Dir.erase : Dir → String → Dir
  | [], _ => []
  | e :: es, fname => if e.name = fname then es else e :: Dir.erase es fname

/-- Find a file's content by name. -/
def Dir.find : Dir → String → Option Bytes
  | [], _ => none
  | e :: es, fname => if e.name = fname then some e.content else Dir.find es fname

/-- Lexicographic string comparison on code points, matching Go's `<`
on the UTF-8 byte strings `ReadDir` sorts by (byte-wise UTF-8 order and
code-point order coincide). -/
def strLeB : List Char → List Char → Bool
  | [], _ => true
  | _ :: _, [] => false
  | a :: as, b :: bs =>
    if a.toNat < b.toNat then true
    else if b.toNat < a.toNat then false
    else strLeB as bs

/-- The name order `ioutil.ReadDir` documents (`fis[i].Name() <
fis[j].Name()`). -/
def nameLe (a b : FileEntry) : Prop := strLeB a.name.data b.name.data = true

instance : DecidableRel nameLe := fun _ _ =>
  inferInstanceAs (Decidable (_ = true))

/-- `ioutil.ReadDir`'s result order: entries sorted by file name. -/
def sortDir (d : Dir) : Dir :=
  d.insertionSort nameLe

/-- `registry.PickupFileinfo`: `ReadDir` then the first entry.  `none`
models an unreadable or absent directory (`ReadDir` error); an empty
listing is the `there is no file` error. -/
def PickupFileinfo (dir : Option Dir) : Except Unit FileEntry :=
  match dir with
  | none => .error ()
  | some entries =>
    match sortDir entries with
    | [] => .error ()
    | fi :: _ => .ok fi

/-- `registry.CreateLayer`: sniff the extension from the single-read
buffer, then write the peeked prefix followed by the remainder of the
stream (`io.MultiReader(bytes.NewReader(buffer[:n]), r)`) to
`layer<ext>` in the directory.  Errors (`.error ()`) when the directory
does not exist (`os.Create` failure).  Returns the new state, the byte
count `io.Copy` reports and the stored file name. -/
def CreateLayer (fs : FS) (dirKey : String) (body : Bytes) :
    Except Unit (FS × Nat × String) :=
  let fname := "layer" ++ detectExt (bufferRead body)
  match fs.lookup dirKey with
  | none => .error ()
  | some d =>
    let content := body.take 8192 ++ body.drop 8192
    .ok (fs.setDir dirKey (d.write fname content), content.length, fname)

/-- Modelled from the spec: the closed error taxonomy of the
`internal/errors` package (not under the sources at hand), §4.2 of the
specification. -/
inductive ErrCode
  | BlobUnknown | BlobUploadInvalid | BlobUploadUnknown | DigestInvalid
  | ManifestInvalid | ManifestUnknown | NameInvalid | NameUnknown
  | SizeInvalid | TagInvalid | Unauthorized | Denied | Unsupported
deriving Repr, DecidableEq

/-- Modelled from the spec: a handler-returned error as built by the
`internal/errors` option constructors seen in `main.go`:
`errors.Wrap(err, errors.WithCodeX())` tags a code, `errors.Wrap(err,
errors.WithStatusCode(n))` only overrides the status, and a bare
`return err` propagates an unclassified cause. -/
inductive RegError
  | withCode (c : ErrCode)
  | withStatus (n : Nat)
  | raw
deriving Repr, DecidableEq

/-- An HTTP response: status, headers in the order they are set, body. -/
structure Response where
  status : Nat
  headers : List (String × String)
  body : Bytes
deriving Repr, DecidableEq

/-- What a wrapped handler produces: a written response or an error the
middleware then translates. -/
inductive Outcome
  | ok (r : Response)
  | err (e : RegError)
deriving Repr, DecidableEq

/-- Modelled from the spec: the status each error kind maps to (§4.2's
table). -/
def ErrCode.toStatus : ErrCode → Nat
  | .BlobUnknown => 404
  | .BlobUploadInvalid => 400
  | .BlobUploadUnknown => 404
  | .DigestInvalid => 400
  | .ManifestInvalid => 400
  | .ManifestUnknown => 404
  | .NameInvalid => 400
  | .NameUnknown => 404
  | .SizeInvalid => 400
  | .TagInvalid => 400
  | .Unauthorized => 401
  | .Denied => 403
  | .Unsupported => 405

/-- Modelled from the spec: the wire code string of each error kind. -/
def ErrCode.codeString : ErrCode → String
  | .BlobUnknown => "BLOB_UNKNOWN"
  | .BlobUploadInvalid => "BLOB_UPLOAD_INVALID"
  | .BlobUploadUnknown => "BLOB_UPLOAD_UNKNOWN"
  | .DigestInvalid => "DIGEST_INVALID"
  | .ManifestInvalid => "MANIFEST_INVALID"
  | .ManifestUnknown => "MANIFEST_UNKNOWN"
  | .NameInvalid => "NAME_INVALID"
  | .NameUnknown => "NAME_UNKNOWN"
  | .SizeInvalid => "SIZE_INVALID"
  | .TagInvalid => "TAG_INVALID"
  | .Unauthorized => "UNAUTHORIZED"
  | .Denied => "DENIED"
  | .Unsupported => "UNSUPPORTED"

/-- The bytes of a string, for error-envelope bodies. -/
def stringBytes (s : String) : Bytes :=
  s.data.map Char.toNat

/-- Modelled from the spec: the middleware's error-to-response
translation (§4.2, §4.7).  A coded error becomes its mapped status with
the JSON envelope (stood in for here by the code string's bytes, the
envelope's distinguishing datum); a bare status override sets only the
status; an unclassified error degrades to 500 with no envelope. -/
def renderError : RegError → Response
  | .withCode c =>
    { status := c.toStatus
      headers := [("Content-Type", "application/json")]
      body := stringBytes c.codeString }
  | .withStatus n => { status := n, headers := [], body := [] }
  | .raw => { status := 500, headers := [], body := [] }

/-- The response the client sees for an outcome. -/
def render : Outcome → Response
  | .ok r => r
  | .err e => renderError e

/-- First header with the given canonical name, as `net/http`'s
`Header.Get` returns it (handlers set each name at most once). -/
def Response.header (r : Response) (k : String) : Option String :=
  match r.headers.find? (fun p => p.1 = k) with
  | some p => some p.2
  | none => none

def Outcome.status (o : Outcome) : Nat := (render o).status

def Outcome.header (o : Outcome) (k : String) : Option String :=
  (render o).header k

def Outcome.body (o : Outcome) : Bytes := (render o).body

/-- The code the middleware would put in the envelope, if any. -/
def Outcome.errCode : Outcome → Option ErrCode
  | .err (.withCode c) => some c
  | _ => none

/-- `DeterminingSupport` (`GET /v2/`): both required headers, JSON
content type, body the two bytes of the empty JSON object, implicit 200
from the first `Write`. -/
def DeterminingSupport : Response :=
  { status := 200
    headers := [("Docker-Distribution-Api-Version", "registry/2.0"),
                ("X-Content-Type-Options", "nosniff"),
                ("Content-Type", "application/json")]
    body := [123, 125] }

/-- `PullingBlobs` (`GET /v2/name/blobs/digest`): parse the digest
(`DigestInvalid` on failure), `os.Stat` the digest directory
(`BlobUnknown` when absent), pick its file, set headers by the
`.json`-suffix branch of the source, stream the file.  Status 200 comes
from the implicit `WriteHeader` on first write.  The state is not
modified. -/
def PullingBlobs (fs : FS) (digestParam : String) : Outcome :=
  match parseDigest digestParam with
  | none => .err (.withCode .DigestInvalid)
  | some dstr =>
    match fs.lookup dstr with
    | none => .err (.withCode .BlobUnknown)
    | some d =>
      match sortDir d with
      | [] => .err .raw
      | fi :: _ =>
        let hs :=
          if endsWithL fi.name.data ".json".data then
            [("Docker-Distribution-Api-Version", "registry/2.0"),
             ("X-Content-Type-Options", "nosniff"),
             ("Content-Type", "application/octet-stream")]
          else
            [("Accept-Ranges", "bytes"),
             ("Content-Type", "application/octet-stream")]
        .ok { status := 200, headers := hs, body := fi.content }

/-- `PushBlob` (`POST /v2/name/blobs/uploads/`): `u` stands for the
fresh `uuid.New().String()`; the handler creates the repository root
(outside the per-repository map modelled here) and answers 202 with the
session `Location` and both required headers. -/
def PushBlob (fs : FS) (name u : String) : FS × Outcome :=
  (fs,
   .ok { status := 202
         headers := [("Location", "/v2/" ++ name ++ "/blobs/uploads/" ++ u),
                     ("Docker-Distribution-Api-Version", "registry/2.0"),
                     ("X-Content-Type-Options", "nosniff")]
         body := [] })

/-- `PushBlobPatch` (`PATCH /v2/name/blobs/uploads/reference`):
`MkdirAll` the reference directory unconditionally, then `CreateLayer`
into it; on success answer 202 with `Location`, `Docker-Upload-UUID` and
`Range` (and no API-version headers, as in the source). -/
def PushBlobPatch (fs : FS) (name reference : String) (body : Bytes) :
    FS × Outcome :=
  let fs1 := fs.mkdirAll reference
  match CreateLayer fs1 reference body with
  | .error _ => (fs1, .err .raw)
  | .ok (fs2, size, _) =>
    (fs2,
     .ok { status := 202
           headers := [("Location", "/v2/" ++ name ++ "/blobs/uploads/" ++ reference),
                       ("Docker-Upload-UUID", reference),
                       ("Range", "0-" ++ toString size)]
           body := [] })

/-- `PushBlobPut` (`PUT /v2/name/blobs/uploads/reference?digest=d`):
parse the digest (`DigestInvalid` on failure), `MkdirAll` the digest
directory, pick the single file of the session directory (a bare
`return err` — an unclassified error — when the session is absent or
empty), rename that file into the digest directory, then `os.Remove`
the session directory ignoring its error.  201 with no headers on
success. -/
def PushBlobPut (fs : FS) (reference digestParam : String) : FS × Outcome :=
  match parseDigest digestParam with
  | none => (fs, .err (.withCode .DigestInvalid))
  | some dstr =>
    let fs1 := fs.mkdirAll dstr
    match PickupFileinfo (fs1.lookup reference) with
    | .error _ => (fs1, .err .raw)
    | .ok fi =>
      let fname := fi.name
      let fs2 :=
        match fs1.lookup reference with
        | none => fs1
        | some dOld =>
          match dOld.find fname with
          | none => fs1
          | some c =>
            let fs' := fs1.setDir reference (dOld.erase fname)
            match fs'.lookup dstr with
            | none => fs'
            | some dNew => fs'.setDir dstr (dNew.write fname c)
      let fs3 := fs2.removeDirIfEmpty reference
      (fs3, .ok { status := 201, headers := [], body := [] })

/-- `PushBlobHead` (`HEAD /v2/name/blobs/digest`): parse the digest
(`DigestInvalid` on failure), `os.Stat` the digest directory (a bare
status-404 error when absent), pick its file, then set `Content-Type`
by the `filepath.Ext` branch, `Docker-Content-Digest`, `Content-Length`
and both required headers — and write status 202 (`http.StatusAccepted`,
as the source literally does). -/
def PushBlobHead (fs : FS) (digestParam : String) : Outcome :=
  match parseDigest digestParam with
  | none => .err (.withCode .DigestInvalid)
  | some dstr =>
    match fs.lookup dstr with
    | none => .err (.withStatus 404)
    | some d =>
      match sortDir d with
      | [] => .err .raw
      | fi :: _ =>
        let ct :=
          if filepathExt fi.name = ".json" then
            "application/vnd.docker.distribution.manifest.v2+json"
          else
            "application/vnd.docker.image.rootfs.diff.tar.gzip"
        .ok { status := 202
              headers := [("Content-Type", ct),
                          ("Docker-Content-Digest", dstr),
                          ("Content-Length", toString fi.content.length),
                          ("Docker-Distribution-Api-Version", "registry/2.0"),
                          ("X-Content-Type-Options", "nosniff")]
              body := [] }

/-- A JSON document, as `encoding/json` sees a manifest body.  Numbers
are integers (the manifest fields decoded are Go `int`/`int64`;
fractional values would make the decode fail and are represented by
their absence from this type's decodable fragment). -/
inductive Json
  | null
  | bool (b : Bool)
  | num (n : Int)
  | str (s : String)
  | arr (elems : List Json)
  | obj (fields : List (String × Json))

/-- Field lookup in a JSON object; on duplicate keys the last wins, as
`encoding/json` fills struct fields. -/
def jlookup : List (String × Json) → String → Option Json
  | [], _ => none
  | (k, v) :: rest, key =>
    if k = key then
      match jlookup rest key with
      | some v' => some v'
      | none => some v
    else jlookup rest key

/-- `ocispec.Descriptor` restricted to the fields the manifest flow
reads and re-encodes (`mediaType`, `digest`, `size`; the remaining
fields are `omitempty` and zero throughout these claims).  `digest` is
`digest.Digest`, a string type whose `String()` is itself. -/
structure Descriptor where
  mediaType : String
  digest : String
  size : Int
deriving Repr, DecidableEq

/-- `main.Manifest` (manifest schema v2). -/
structure Manifest where
  schemaVersion : Int
  mediaType : String
  config : Descriptor
  layers : List Descriptor
deriving Repr, DecidableEq

/-- `encoding/json` decoding of a string-typed struct field: absent or
`null` leaves the zero value, a string sets it, any other shape fails
the whole decode. -/
def decodeStringField : Option Json → Option String
  | none => some ""
  | some .null => some ""
  | some (.str s) => some s
  | some _ => none

/-- `encoding/json` decoding of an integer-typed struct field. -/
def decodeIntField : Option Json → Option Int
  | none => some (0 : Int)
  | some .null => some (0 : Int)
  | some (.num n) => some n
  | some _ => none

/-- `encoding/json` decoding of a `Descriptor`-typed value: an object
fills the fields (unknown keys ignored, absent keys zero), `null`
leaves the zero descriptor, anything else fails. -/
def decodeDescriptor : Json → Option Descriptor
  | .obj fields => do
    let mt ← decodeStringField (jlookup fields "mediaType")
    let dg ← decodeStringField (jlookup fields "digest")
    let sz ← decodeIntField (jlookup fields "size")
    pure ⟨mt, dg, sz⟩
  | .null => some ⟨"", "", 0⟩
  | _ => none

/-- Element-wise decoding of a JSON array of descriptors; any element
failure fails the slice. -/
def decodeDescriptorList : List Json → Option (List Descriptor)
  | [] => some []
  | j :: js => do
    let d ← decodeDescriptor j
    let ds ← decodeDescriptorList js
    pure (d :: ds)

/-- Decoding of the `layers` slice: absent or `null` is the nil slice,
an array decodes element-wise, anything else fails. -/
def decodeLayers : Option Json → Option (List Descriptor)
  | none => some []
  | some .null => some []
  | some (.arr elems) => decodeDescriptorList elems
  | some _ => none

/-- `json.NewDecoder(r.Body).Decode(&m)` for `main.Manifest`: the
success/failure and resulting value of the decode in `PushManifestPut`. -/
def decodeManifest : Json → Option Manifest
  | .obj fields => do
    let sv ← decodeIntField (jlookup fields "schemaVersion")
    let mt ← decodeStringField (jlookup fields "mediaType")
    let cfg ←
      match jlookup fields "config" with
      | none => some ⟨"", "", 0⟩
      | some j => decodeDescriptor j
    let ls ← decodeLayers (jlookup fields "layers")
    pure ⟨sv, mt, cfg, ls⟩
  | .null => some ⟨0, "", ⟨"", "", 0⟩, []⟩
  | _ => none

/-- `json.NewEncoder(f).Encode(&m)` for a descriptor. -/
def encodeDescriptor (d : Descriptor) : Json :=
  .obj [("mediaType", .str d.mediaType),
        ("digest", .str d.digest),
        ("size", .num d.size)]

/-- `json.NewEncoder(f).Encode(&m)`: the JSON document written to
`manifest.json`. -/
def encodeManifest (m : Manifest) : Json :=
  .obj [("schemaVersion", .num m.schemaVersion),
        ("mediaType", .str m.mediaType),
        ("config", encodeDescriptor m.config),
        ("layers", .arr (m.layers.map encodeDescriptor))]

/-- The manifest store: tag mapped to the JSON document stored in
`base/name/tag/manifest.json` (the directory always holds exactly that
one file, so the map is keyed by tag directly; the tag directory's
path-level identity with blob directories is proved separately from
`PathJoinWithBase`). -/
abbrev MFS := List (String × Json)

def MFS.lookup : MFS → String → Option Json
  | [], _ => none
  | (k, v) :: rest, key => if k = key then some v else MFS.lookup rest key

/-- `MkdirAll` plus `os.Create` plus encode: set or overwrite the
document stored under a tag. -/
def MFS.set : MFS → String → Json → MFS
  | [], key, v => [(key, v)]
  | (k, w) :: rest, key, v =>
    if k = key then (k, v) :: rest else (k, w) :: MFS.set rest key v

/-- `PushManifestPut` (`PUT /v2/name/manifests/tag`): decode the body
(`ManifestInvalid` on failure), re-encode the decoded value into
`manifest.json` under the tag, answer 201 with `Docker-Content-Digest`
set to the decoded manifest's `config.digest` (and no other headers). -/
def PushManifestPut (mfs : MFS) (tag : String) (body : Json) : MFS × Outcome :=
  match decodeManifest body with
  | none => (mfs, .err (.withCode .ManifestInvalid))
  | some m =>
    (mfs.set tag (encodeManifest m),
     .ok { status := 201
           headers := [("Docker-Content-Digest", m.config.digest)]
           body := [] })

/-- The headers `PullingManifests` writes on success. -/
def manifestGetHeaders : List (String × String) :=
  [("Docker-Distribution-Api-Version", "registry/2.0"),
   ("X-Content-Type-Options", "nosniff"),
   ("Content-Type", "application/vnd.docker.distribution.manifest.v2+json")]

/-- `PullingManifests` (`GET /v2/name/manifests/tag`): `os.Stat` of
`manifest.json` under the tag (`ManifestUnknown` when absent), then 200
with the stored document and the three headers. -/
def PullingManifests (mfs : MFS) (tag : String) :
    Except RegError (Nat × List (String × String) × Json) :=
  match mfs.lookup tag with
  | none => .error (.withCode .ManifestUnknown)
  | some doc => .ok (200, manifestGetHeaders, doc)

/-- Lowercase alphanumeric, for the `name` grammar's components. -/
def isLowerAlnum (c : Char) : Bool :=
  ('a' ≤ c && c ≤ 'z') || ('0' ≤ c && c ≤ '9')

/-- Modelled from the spec: the tail of a `name` component after its
leading alphanumeric — alternating alphanumeric runs and single
`.`/`_`/`-` separators, ending on an alphanumeric (§4.1's
component grammar). -/
def compTail : List Char → Bool
  | [] => true
  | c :: cs =>
    if isLowerAlnum c then compTail cs
    else if c = '.' || c = '_' || c = '-' then
      match cs with
      | [] => false
      | c2 :: cs2 => isLowerAlnum c2 && compTail cs2
    else false

/-- Modelled from the spec: one component of the `name` grammar
(`internal/grammar` is not under the sources at hand). -/
def componentOk : List Char → Bool
  | [] => false
  | c :: cs => isLowerAlnum c && compTail cs

/-- Split a character list at every slash. -/
def splitSlash : List Char → List (List Char)
  | [] => [[]]
  | c :: cs =>
    if c = '/' then [] :: splitSlash cs
    else
      match splitSlash cs with
      | [] => [[c]]
      | p :: ps => (c :: p) :: ps

/-- Modelled from the spec: the `name` grammar — slash-separated
conforming components (§4.1). -/
def nameGrammar (s : String) : Bool :=
  (splitSlash s.data).all componentOk

/-- Modelled from the spec: the `digest` route grammar of
`internal/grammar` — `<algo>:<hex>` where `<algo>` is a known hash name
(§4.1, §6: at least `sha256`). -/
def digestGrammar (s : String) : Bool :=
  match splitColon s.data with
  | none => false
  | some (algoCs, encCs) =>
    (algoHexLen (String.mk algoCs)).isSome &&
      !encCs.isEmpty && encCs.all isLowerHexChar

/-- Modelled from the spec: the router's no-route answer — 404 with an
empty body and no envelope (§4.1). -/
def routerMiss : Response :=
  { status := 404, headers := [], body := [] }

/-- The `GET /v2/name/blobs/digest` route as registered in `main.go`:
both segments must match their grammar for the request to reach
`PullingBlobs`; otherwise the router misses. -/
def routeBlobsGet (fs : FS) (nameSeg digestSeg : String) : Response :=
  if nameGrammar nameSeg && digestGrammar digestSeg then
    render (PullingBlobs fs digestSeg)
  else
    routerMiss

/-! ### Helper lemmas -/

@[simp]
theorem FS.lookup_nil (key : String) : FS.lookup [] key = none := rfl

@[simp]
theorem FS.lookup_cons (k : String) (d : Dir) (fs : FS) (key : String) :
    FS.lookup ((k, d) :: fs) key = if k = key then some d else FS.lookup fs key := rfl

theorem FS.mkdirAll_of_not_found {fs : FS} {k : String} (h : fs.lookup k = none) :
    fs.mkdirAll k = (k, []) :: fs := by
  unfold FS.mkdirAll
  rw [h]

theorem FS.mkdirAll_of_found {fs : FS} {k : String} {d : Dir} (h : fs.lookup k = some d) :
    fs.mkdirAll k = fs := by
  unfold FS.mkdirAll
  rw [h]

theorem FS.lookup_setDir_self {fs : FS} {k : String} {d d' : Dir} (h : fs.lookup k = some d) :
    (fs.setDir k d').lookup k = some d' := by
  induction fs with
  | nil => simp at h
  | cons hd tl ih =>
    obtain ⟨k1, d1⟩ := hd
    by_cases hk : k1 = k
    · subst hk
      simp [FS.setDir]
    · simp only [FS.lookup_cons, if_neg hk] at h
      simp [FS.setDir, hk, ih h]

theorem parseDigest_self {s t : String} (h : parseDigest s = some t) : t = s := by
  unfold parseDigest at h
  split at h
  · cases h
  · split at h
    · cases h
    · split at h
      · exact (Option.some_inj.mp h).symm
      · cases h

theorem strLeB_total : ∀ (x y : List Char), strLeB x y = true ∨ strLeB y x = true
  | [], _ => Or.inl rfl
  | _ :: _, [] => Or.inr rfl
  | a :: as, b :: bs => by
    rcases Nat.lt_trichotomy a.toNat b.toNat with h1 | h1 | h1
    · left
      simp only [strLeB]
      rw [if_pos h1]
    · rcases strLeB_total as bs with h | h
      · left
        simp only [strLeB]
        rw [if_neg (by omega), if_neg (by omega)]
        exact h
      · right
        simp only [strLeB]
        rw [if_neg (by omega), if_neg (by omega)]
        exact h
    · right
      simp only [strLeB]
      rw [if_pos h1]

theorem strLeB_trans :
    ∀ (x y z : List Char), strLeB x y = true → strLeB y z = true → strLeB x z = true
  | [], _, _ => fun _ _ => rfl
  | _ :: _, [], _ => fun h _ => by cases h
  | _ :: _, _ :: _, [] => fun _ h => by cases h
  | a :: as, b :: bs, c :: cs => fun h1 h2 => by
    simp only [strLeB] at h1 h2 ⊢
    rcases Nat.lt_trichotomy a.toNat b.toNat with hab | hab | hab
    · rcases Nat.lt_trichotomy b.toNat c.toNat with hbc | hbc | hbc
      · rw [if_pos (by omega)]
      · rw [if_pos (by omega)]
      · rw [if_neg (by omega), if_pos (by omega)] at h2
        cases h2
    · rw [if_neg (by omega), if_neg (by omega)] at h1
      rcases Nat.lt_trichotomy b.toNat c.toNat with hbc | hbc | hbc
      · rw [if_pos (by omega)]
      · rw [if_neg (by omega), if_neg (by omega)] at h2
        rw [if_neg (by omega), if_neg (by omega)]
        exact strLeB_trans as bs cs h1 h2
      · rw [if_neg (by omega), if_pos (by omega)] at h2
        cases h2
    · rw [if_neg (by omega), if_pos (by omega)] at h1
      cases h1

instance : IsTotal FileEntry nameLe :=
  ⟨fun a b => strLeB_total a.name.data b.name.data⟩

instance : IsTrans FileEntry nameLe :=
  ⟨fun _ _ _ hab hbc => strLeB_trans _ _ _ hab hbc⟩

theorem sortDir_perm (d : Dir) : List.Perm (sortDir d) d :=
  List.perm_insertionSort nameLe d

theorem sortDir_sorted (d : Dir) : List.Sorted nameLe (sortDir d) :=
  List.sorted_insertionSort nameLe d

@[simp]
theorem sortDir_nil : sortDir [] = [] := rfl

@[simp]
theorem sortDir_singleton (e : FileEntry) : sortDir [e] = [e] := rfl

theorem sortDir_eq_nil_iff {d : Dir} : sortDir d = [] ↔ d = [] := by
  constructor
  · intro h
    have hp := sortDir_perm d
    rw [h] at hp
    exact hp.symm.eq_nil
  · intro h
    rw [h]
    rfl

theorem sortDir_head_min {d : Dir} {fi : FileEntry} {rest : Dir}
    (h : sortDir d = fi :: rest) :
    fi ∈ d ∧ ∀ e ∈ d, strLeB fi.name.data e.name.data = true := by
  have hs := sortDir_sorted d
  have hp := sortDir_perm d
  rw [h] at hs hp
  refine ⟨hp.mem_iff.mp (List.mem_cons_self fi rest), ?_⟩
  intro e he
  have he' : e ∈ fi :: rest := hp.mem_iff.mpr he
  rcases List.mem_cons.mp he' with h1 | h2
  · subst h1
    rcases strLeB_total e.name.data e.name.data with h | h <;> exact h
  · exact (List.sorted_cons.mp hs).1 e h2

theorem decodeDescriptor_encode (d : Descriptor) :
    decodeDescriptor (encodeDescriptor d) = some d := rfl

theorem decodeDescriptorList_encode (ls : List Descriptor) :
    decodeDescriptorList (ls.map encodeDescriptor) = some ls := by
  induction ls with
  | nil => rfl
  | cons d ds ih =>
    simp [decodeDescriptorList, decodeDescriptor_encode, ih]

theorem decodeManifest_encode (m : Manifest) :
    decodeManifest (encodeManifest m) = some m := by
  obtain ⟨sv, mt, cfg, ls⟩ := m
  simp only [encodeManifest, decodeManifest]
  simp [jlookup, decodeIntField, decodeStringField, decodeDescriptor_encode,
    decodeLayers, decodeDescriptorList_encode]

theorem CreateLayer_of_found {fs : FS} {key : String} {d : Dir} {body : Bytes}
    (h : fs.lookup key = some d) :
    CreateLayer fs key body =
      .ok (fs.setDir key (d.write (layerFileName body) body),
           body.length, layerFileName body) := by
  unfold CreateLayer
  rw [h]
  simp [layerFileName, List.take_append_drop]

theorem PushBlobPatch_fresh {fs : FS} {name u : String} {B : Bytes}
    (h : fs.lookup u = none) :
    PushBlobPatch fs name u B =
      ((u, [⟨layerFileName B, B⟩]) :: fs,
       .ok { status := 202
             headers := [("Location", "/v2/" ++ name ++ "/blobs/uploads/" ++ u),
                         ("Docker-Upload-UUID", u),
                         ("Range", "0-" ++ toString B.length)]
             body := [] }) := by
  unfold PushBlobPatch
  rw [FS.mkdirAll_of_not_found h]
  dsimp only
  rw [@CreateLayer_of_found ((u, []) :: fs) u [] B (by simp)]
  simp [FS.setDir, Dir.write]

theorem PushBlobPatch_existing {fs : FS} {name key : String} {d : Dir} {B : Bytes}
    (h : fs.lookup key = some d) :
    PushBlobPatch fs name key B =
      (fs.setDir key (d.write (layerFileName B) B),
       .ok { status := 202
             headers := [("Location", "/v2/" ++ name ++ "/blobs/uploads/" ++ key),
                         ("Docker-Upload-UUID", key),
                         ("Range", "0-" ++ toString B.length)]
             body := [] }) := by
  unfold PushBlobPatch
  rw [FS.mkdirAll_of_found h]
  dsimp only
  rw [CreateLayer_of_found h]

theorem PushBlobPut_commit {fs0 : FS} {u dp : String} {e : FileEntry}
    (hparse : parseDigest dp = some dp)
    (hd : fs0.lookup dp = none) (hne : dp ≠ u) :
    PushBlobPut ((u, [e]) :: fs0) u dp =
      ((dp, [e]) :: fs0, .ok { status := 201, headers := [], body := [] }) := by
  obtain ⟨n, c⟩ := e
  unfold PushBlobPut
  rw [hparse]
  simp only [FS.mkdirAll, FS.lookup_cons, if_neg (Ne.symm hne), hd]
  simp [PickupFileinfo, FS.lookup, Ne.symm hne, hne, Dir.find, Dir.erase,
    FS.setDir, Dir.write, FS.removeDirIfEmpty, FS.eraseKey]

theorem PullingBlobs_single {fs0 : FS} {dp : String} {e : FileEntry}
    (hparse : parseDigest dp = some dp) :
    (PullingBlobs ((dp, [e]) :: fs0) dp).status = 200 ∧
    (PullingBlobs ((dp, [e]) :: fs0) dp).body = e.content := by
  unfold PullingBlobs
  rw [hparse]
  by_cases h : e.name.endsWith ".json" = true <;>
    simp [h, Outcome.status, Outcome.body, render]

theorem PushBlobHead_single {fs0 : FS} {dp : String} {e : FileEntry}
    (hparse : parseDigest dp = some dp) :
    PushBlobHead ((dp, [e]) :: fs0) dp =
      .ok { status := 202
            headers := [("Content-Type",
                          if filepathExt e.name = ".json" then
                            "application/vnd.docker.distribution.manifest.v2+json"
                          else
                            "application/vnd.docker.image.rootfs.diff.tar.gzip"),
                        ("Docker-Content-Digest", dp),
                        ("Content-Length", toString e.content.length),
                        ("Docker-Distribution-Api-Version", "registry/2.0"),
                        ("X-Content-Type-Options", "nosniff")]
            body := [] } := by
  unfold PushBlobHead
  rw [hparse]
  simp

/-- A well-formed sha256 digest string used by concrete witnesses. -/
def sampleDigest : String :=
  "sha256:aaaaaaaaaaaaaaaaaaaaaaaaaaaaaaaaaaaaaaaaaaaaaaaaaaaaaaaaaaaaaaaa"

/-! ### Claims -/

/-- C1: For every successful push sequence (POST opens a session, one
PATCH uploads bytes `B`, PUT commits with a digest), a subsequent GET of
the blob path returns a body equal to `B` byte for byte (including the
up-to-8192-byte prefix consumed during media-type detection), and a
subsequent HEAD of the same path returns `Content-Length` equal to the
length of `B`.  The upload id `u` is the fresh token POST issued and the
digest directory does not pre-exist. -/
theorem C1_push_pull_roundtrip
    (fs : FS) (name u dp : String) (B : Bytes)
    (hparse : parseDigest dp = some dp)
    (hu : fs.lookup u = none)
    (hd : fs.lookup dp = none)
    (hne : dp ≠ u) :
    (PushBlobPatch fs name u B).2.status = 202 ∧
    (PushBlobPut (PushBlobPatch fs name u B).1 u dp).2.status = 201 ∧
    (PullingBlobs (PushBlobPut (PushBlobPatch fs name u B).1 u dp).1 dp).status = 200 ∧
    (PullingBlobs (PushBlobPut (PushBlobPatch fs name u B).1 u dp).1 dp).body = B ∧
    (PushBlobHead (PushBlobPut (PushBlobPatch fs name u B).1 u dp).1 dp).header
      "Content-Length" = some (toString B.length) := by
  rw [PushBlobPatch_fresh hu]
  dsimp only
  rw [PushBlobPut_commit hparse hd hne]
  dsimp only
  refine ⟨rfl, rfl, ?_, ?_, ?_⟩
  · exact (PullingBlobs_single hparse).1
  · exact (PullingBlobs_single hparse).2
  · rw [PushBlobHead_single hparse]
    rfl

/-- Witness for C1: a concrete push of four gzip-magic bytes through an
empty store. -/
theorem C1_push_pull_roundtrip_witness :
    parseDigest sampleDigest = some sampleDigest ∧
    (PushBlobPatch [] "myorg/myrepo" "u1" [31, 139, 8, 0]).2.status = 202 ∧
    (PushBlobPut (PushBlobPatch [] "myorg/myrepo" "u1" [31, 139, 8, 0]).1 "u1"
      sampleDigest).2.status = 201 ∧
    (PullingBlobs (PushBlobPut (PushBlobPatch [] "myorg/myrepo" "u1"
      [31, 139, 8, 0]).1 "u1" sampleDigest).1 sampleDigest).body = [31, 139, 8, 0] ∧
    (PushBlobHead (PushBlobPut (PushBlobPatch [] "myorg/myrepo" "u1"
      [31, 139, 8, 0]).1 "u1" sampleDigest).1 sampleDigest).header
      "Content-Length" = some "4" := by
  have h := C1_push_pull_roundtrip [] "myorg/myrepo" "u1" sampleDigest
    [31, 139, 8, 0] (by decide) rfl rfl (by decide)
  exact ⟨by decide, h.1, h.2.1, h.2.2.2.1, h.2.2.2.2⟩

theorem MFS.lookup_set_self (mfs : MFS) (tag : String) (v : Json) :
    (MFS.set mfs tag v).lookup tag = some v := by
  induction mfs with
  | nil => simp [MFS.set, MFS.lookup]
  | cons hd tl ih =>
    obtain ⟨k, w⟩ := hd
    by_cases hk : k = tag
    · subst hk
      simp [MFS.set, MFS.lookup]
    · simp [MFS.set, MFS.lookup, hk, ih]

/-- C2: For every manifest PUT with body `M` under a tag, a subsequent
GET of the manifest path returns 200 with a JSON document whose parsed
form equals the parsed form of `M`, and the PUT response is 201 and
carries `Docker-Content-Digest` equal to `M`'s `config.digest` (the
`config.digest` of `M`'s parsed form). -/
theorem C2_manifest_put_get_roundtrip
    (mfs : MFS) (tag : String) (M : Json) (m : Manifest)
    (h : decodeManifest M = some m) :
    (PushManifestPut mfs tag M).2.status = 201 ∧
    (PushManifestPut mfs tag M).2.header "Docker-Content-Digest"
      = some m.config.digest ∧
    ∃ doc,
      PullingManifests (PushManifestPut mfs tag M).1 tag
        = .ok (200, manifestGetHeaders, doc) ∧
      decodeManifest doc = decodeManifest M := by
  unfold PushManifestPut
  rw [h]
  dsimp only
  refine ⟨rfl, rfl, encodeManifest m, ?_, ?_⟩
  · unfold PullingManifests
    rw [MFS.lookup_set_self]
  · rw [decodeManifest_encode]

/-- The manifest document of scenario S3, as a JSON value. -/
def sampleManifestJson : Json :=
  .obj [("schemaVersion", .num 2),
        ("mediaType", .str "application/vnd.docker.distribution.manifest.v2+json"),
        ("config",
         .obj [("mediaType", .str "application/vnd.docker.container.image.v1+json"),
               ("digest", .str sampleDigest),
               ("size", .num 7023)]),
        ("layers",
         .arr [.obj [("mediaType", .str "application/vnd.docker.image.rootfs.diff.tar.gzip"),
                     ("digest", .str sampleDigest),
                     ("size", .num 1024)]])]

/-- The parsed form of `sampleManifestJson`. -/
def sampleManifest : Manifest :=
  { schemaVersion := 2
    mediaType := "application/vnd.docker.distribution.manifest.v2+json"
    config := { mediaType := "application/vnd.docker.container.image.v1+json"
                digest := sampleDigest
                size := 7023 }
    layers := [{ mediaType := "application/vnd.docker.image.rootfs.diff.tar.gzip"
                 digest := sampleDigest
                 size := 1024 }] }

/-- Witness for C2: the S3 manifest pushed into an empty store. -/
theorem C2_manifest_put_get_roundtrip_witness :
    decodeManifest sampleManifestJson = some sampleManifest ∧
    (PushManifestPut [] "v1" sampleManifestJson).2.status = 201 ∧
    (PushManifestPut [] "v1" sampleManifestJson).2.header "Docker-Content-Digest"
      = some sampleDigest ∧
    ∃ doc,
      PullingManifests (PushManifestPut [] "v1" sampleManifestJson).1 "v1"
        = .ok (200, manifestGetHeaders, doc) ∧
      decodeManifest doc = decodeManifest sampleManifestJson := by
  have h := C2_manifest_put_get_roundtrip [] "v1" sampleManifestJson sampleManifest rfl
  exact ⟨rfl, h.1, h.2.1, h.2.2⟩

/-- C3 counterexample: a PATCH whose reference is not an upload id of
any open session (the store is empty) is accepted with 202 and produces
no error code at all — not 404 with BLOB_UPLOAD_UNKNOWN as claimed. -/
theorem C3_counterexample_patch_unknown_accepted :
    (PushBlobPatch [] "myorg/myrepo" "deadbeef" [1, 2, 3]).2.status = 202 ∧
    (PushBlobPatch [] "myorg/myrepo" "deadbeef" [1, 2, 3]).2.status ≠ 404 ∧
    (PushBlobPatch [] "myorg/myrepo" "deadbeef" [1, 2, 3]).2.errCode = none :=
  ⟨rfl, by decide, rfl⟩

/-- C3 amended: a PATCH whose reference is unknown silently creates a
fresh session directory for it and responds 202 (the handler runs
`MkdirAll` unconditionally and never checks the reference); a PUT whose
reference is unknown fails with the unclassified `PickupFileinfo` error,
surfaced as 500 with no envelope — neither responds 404 with
BLOB_UPLOAD_UNKNOWN. -/
theorem C3_unknown_reference_behavior
    (fs : FS) (name ref dp : String) (B : Bytes)
    (href : fs.lookup ref = none)
    (hparse : parseDigest dp = some dp)
    (hne : dp ≠ ref) :
    (PushBlobPatch fs name ref B).2.status = 202 ∧
    (PushBlobPatch fs name ref B).1.lookup ref = some [⟨layerFileName B, B⟩] ∧
    (PushBlobPut fs ref dp).2 = .err .raw ∧
    (PushBlobPut fs ref dp).2.status = 500 ∧
    (PushBlobPut fs ref dp).2.errCode ≠ some ErrCode.BlobUploadUnknown := by
  have h1 : (fs.mkdirAll dp).lookup ref = none := by
    unfold FS.mkdirAll
    cases hlk : fs.lookup dp with
    | none => simp [hne, href]
    | some d => simpa using href
  have hput : PushBlobPut fs ref dp = (fs.mkdirAll dp, .err .raw) := by
    unfold PushBlobPut
    rw [hparse]
    dsimp only
    rw [h1]
    rfl
  rw [PushBlobPatch_fresh href, hput]
  refine ⟨rfl, ?_, rfl, rfl, by simp [Outcome.errCode]⟩
  simp

/-- Witness for C3's amended statement at a concrete unknown reference. -/
theorem C3_unknown_reference_behavior_witness :
    FS.lookup [] "deadbeef" = none ∧
    parseDigest sampleDigest = some sampleDigest ∧
    (PushBlobPatch [] "myorg/myrepo" "deadbeef" [1, 2, 3]).1.lookup "deadbeef"
      = some [⟨"layer.json", [1, 2, 3]⟩] ∧
    (PushBlobPut [] "deadbeef" sampleDigest).2.status = 500 := by
  have h := C3_unknown_reference_behavior [] "myorg/myrepo" "deadbeef" sampleDigest
    [1, 2, 3] rfl (by decide) (by decide)
  exact ⟨rfl, by decide, h.2.1, h.2.2.2.1⟩

/-- C4 (code bug): a HEAD of an existing blob carries Content-Length
equal to the stored size, Docker-Content-Digest equal to the requested
digest, and the extension-derived Content-Type — but its status is 202
(`http.StatusAccepted` in the source), not the claimed 200. -/
theorem C4_head_existing_blob_status_202 :
    (PushBlobHead [(sampleDigest, [⟨"layer.tar.gz", [31, 139]⟩])] sampleDigest).status
      = 202 ∧
    (PushBlobHead [(sampleDigest, [⟨"layer.tar.gz", [31, 139]⟩])] sampleDigest).status
      ≠ 200 ∧
    (PushBlobHead [(sampleDigest, [⟨"layer.tar.gz", [31, 139]⟩])] sampleDigest).header
      "Content-Length" = some "2" ∧
    (PushBlobHead [(sampleDigest, [⟨"layer.tar.gz", [31, 139]⟩])] sampleDigest).header
      "Docker-Content-Digest" = some sampleDigest ∧
    (PushBlobHead [(sampleDigest, [⟨"layer.tar.gz", [31, 139]⟩])] sampleDigest).header
      "Content-Type" = some "application/vnd.docker.image.rootfs.diff.tar.gzip" :=
  ⟨rfl, by decide, rfl, rfl, rfl⟩

/-- C5 counterexample: a PUT commit whose upload session does not exist
(empty store) fails — and still creates the digest directory, so the
on-disk state is not unchanged. -/
theorem C5_counterexample_failed_commit_creates_dir :
    PushBlobPut [] "u1" sampleDigest = ([(sampleDigest, [])], .err .raw) ∧
    ([] : FS) ≠ [(sampleDigest, [])] :=
  ⟨rfl, by decide⟩

/-- C5 amended: PUT commit runs `MkdirAll` on the digest directory
before validating the session; when the session is unknown the commit
fails with an unclassified error and the freshly created empty digest
directory is left behind (no other change is made to the state). -/
theorem C5_failed_commit_leaves_empty_digest_dir
    (fs : FS) (u dp : String)
    (hparse : parseDigest dp = some dp)
    (hu : fs.lookup u = none)
    (hd : fs.lookup dp = none)
    (hne : dp ≠ u) :
    PushBlobPut fs u dp = ((dp, []) :: fs, .err .raw) ∧
    FS.lookup ((dp, []) :: fs) dp = some [] := by
  have hmk : fs.mkdirAll dp = (dp, []) :: fs := FS.mkdirAll_of_not_found hd
  have h1 : FS.lookup ((dp, []) :: fs) u = none := by
    simp [hne, hu]
  refine ⟨?_, by simp⟩
  unfold PushBlobPut
  rw [hparse]
  dsimp only
  rw [hmk, h1]
  rfl

/-- Witness for C5's amended statement at a concrete failed commit. -/
theorem C5_failed_commit_leaves_empty_digest_dir_witness :
    parseDigest sampleDigest = some sampleDigest ∧
    FS.lookup [] "u1" = none ∧
    PushBlobPut [] "u1" sampleDigest = ([(sampleDigest, [])], .err .raw) ∧
    FS.lookup [(sampleDigest, [])] sampleDigest = some [] := by
  have h := C5_failed_commit_leaves_empty_digest_dir [] "u1" sampleDigest
    (by decide) rfl rfl (by decide)
  exact ⟨by decide, rfl, h.1, h.2⟩

/-- C6 counterexample: the successful PATCH response carries neither
`Docker-Distribution-Api-Version` nor `X-Content-Type-Options`, so not
every response carries them. -/
theorem C6_counterexample_patch_missing_headers :
    (PushBlobPatch [] "myorg/myrepo" "u1" [1]).2.status = 202 ∧
    (PushBlobPatch [] "myorg/myrepo" "u1" [1]).2.header
      "Docker-Distribution-Api-Version" = none ∧
    (PushBlobPatch [] "myorg/myrepo" "u1" [1]).2.header
      "X-Content-Type-Options" = none :=
  ⟨rfl, rfl, rfl⟩

/-- C6 amended: the two registry headers are carried by the discovery
endpoint, the upload POST, blob HEAD (success), manifest GET (success)
and blob GET when the stored file name ends in `.json`; the blob PATCH,
blob PUT and manifest PUT handlers never set them, and the non-`.json`
branch of blob GET omits them as well. -/
theorem C6_header_inventory
    (fs : FS) (mfs : MFS) (name u tag dp : String) (B : Bytes)
    (M doc : Json) (e : FileEntry) (rest d : Dir)
    (hparse : parseDigest dp = some dp)
    (hdir : fs.lookup dp = some d)
    (hsort : sortDir d = e :: rest)
    (hm : mfs.lookup tag = some doc) :
    DeterminingSupport.header "Docker-Distribution-Api-Version" = some "registry/2.0" ∧
    DeterminingSupport.header "X-Content-Type-Options" = some "nosniff" ∧
    (PushBlob fs name u).2.header "Docker-Distribution-Api-Version" = some "registry/2.0" ∧
    (PushBlob fs name u).2.header "X-Content-Type-Options" = some "nosniff" ∧
    (PushBlobHead fs dp).header "Docker-Distribution-Api-Version" = some "registry/2.0" ∧
    (PushBlobHead fs dp).header "X-Content-Type-Options" = some "nosniff" ∧
    (PullingManifests mfs tag = .ok (200, manifestGetHeaders, doc) ∧
      ("Docker-Distribution-Api-Version", "registry/2.0") ∈ manifestGetHeaders ∧
      ("X-Content-Type-Options", "nosniff") ∈ manifestGetHeaders) ∧
    (PullingBlobs fs dp).header "Docker-Distribution-Api-Version"
      = (if endsWithL e.name.data ".json".data then some "registry/2.0" else none) ∧
    (PullingBlobs fs dp).header "X-Content-Type-Options"
      = (if endsWithL e.name.data ".json".data then some "nosniff" else none) ∧
    (PushBlobPatch fs name u B).2.header "Docker-Distribution-Api-Version" = none ∧
    (PushBlobPatch fs name u B).2.header "X-Content-Type-Options" = none ∧
    (PushBlobPut fs u dp).2.header "Docker-Distribution-Api-Version" = none ∧
    (PushBlobPut fs u dp).2.header "X-Content-Type-Options" = none ∧
    (PushManifestPut mfs tag M).2.header "Docker-Distribution-Api-Version" = none ∧
    (PushManifestPut mfs tag M).2.header "X-Content-Type-Options" = none := by
  have hhead : PushBlobHead fs dp
      = .ok { status := 202
              headers := [("Content-Type",
                            if filepathExt e.name = ".json" then
                              "application/vnd.docker.distribution.manifest.v2+json"
                            else
                              "application/vnd.docker.image.rootfs.diff.tar.gzip"),
                          ("Docker-Content-Digest", dp),
                          ("Content-Length", toString e.content.length),
                          ("Docker-Distribution-Api-Version", "registry/2.0"),
                          ("X-Content-Type-Options", "nosniff")]
              body := [] } := by
    unfold PushBlobHead
    simp only [hparse, hdir, hsort]
  have hget : (PullingBlobs fs dp).header "Docker-Distribution-Api-Version"
      = (if endsWithL e.name.data ".json".data then some "registry/2.0" else none) ∧
      (PullingBlobs fs dp).header "X-Content-Type-Options"
      = (if endsWithL e.name.data ".json".data then some "nosniff" else none) := by
    unfold PullingBlobs
    simp only [hparse, hdir, hsort]
    by_cases hj : endsWithL e.name.data ".json".data = true <;>
      simp [hj, Outcome.header, render, Response.header]
  have hpatch : ∀ k, k = "Docker-Distribution-Api-Version" ∨ k = "X-Content-Type-Options" →
      (PushBlobPatch fs name u B).2.header k = none := by
    intro k hk
    unfold PushBlobPatch
    cases hcl : CreateLayer (fs.mkdirAll u) u B with
    | error a =>
      simp only [hcl]
      rcases hk with h | h <;> subst h <;> rfl
    | ok res =>
      obtain ⟨fs2, size, fn⟩ := res
      simp only [hcl]
      rcases hk with h | h <;> subst h <;>
        simp [Outcome.header, render, Response.header]
  have hput : ∀ k, k = "Docker-Distribution-Api-Version" ∨ k = "X-Content-Type-Options" →
      (PushBlobPut fs u dp).2.header k = none := by
    intro k hk
    unfold PushBlobPut
    rw [hparse]
    dsimp only
    cases hpk : PickupFileinfo ((fs.mkdirAll dp).lookup u) with
    | error a =>
      simp only [hpk]
      rcases hk with h | h <;> subst h <;> rfl
    | ok fi =>
      simp only [hpk]
      rcases hk with h | h <;> subst h <;> rfl
  have hmput : ∀ k, k = "Docker-Distribution-Api-Version" ∨ k = "X-Content-Type-Options" →
      (PushManifestPut mfs tag M).2.header k = none := by
    intro k hk
    unfold PushManifestPut
    cases hdm : decodeManifest M with
    | none =>
      simp only [hdm]
      rcases hk with h | h <;> subst h <;> rfl
    | some m =>
      simp only [hdm]
      rcases hk with h | h <;> subst h <;>
        simp [Outcome.header, render, Response.header]
  refine ⟨rfl, rfl, rfl, rfl, ?_, ?_, ?_, hget.1, hget.2,
    hpatch _ (Or.inl rfl), hpatch _ (Or.inr rfl),
    hput _ (Or.inl rfl), hput _ (Or.inr rfl),
    hmput _ (Or.inl rfl), hmput _ (Or.inr rfl)⟩
  · rw [hhead]
    rfl
  · rw [hhead]
    rfl
  · refine ⟨?_, by simp [manifestGetHeaders], by simp [manifestGetHeaders]⟩
    unfold PullingManifests
    rw [hm]

/-- Witness for C6's amended statement at a concrete store holding one
blob and one manifest. -/
theorem C6_header_inventory_witness :
    sortDir [⟨"layer.tar.gz", [31, 139]⟩] = [⟨"layer.tar.gz", [31, 139]⟩] ∧
    (PushBlobHead [(sampleDigest, [⟨"layer.tar.gz", [31, 139]⟩])] sampleDigest).header
      "Docker-Distribution-Api-Version" = some "registry/2.0" ∧
    (PullingBlobs [(sampleDigest, [⟨"layer.tar.gz", [31, 139]⟩])] sampleDigest).header
      "Docker-Distribution-Api-Version" = none ∧
    (PushBlobPatch [(sampleDigest, [⟨"layer.tar.gz", [31, 139]⟩])] "myorg/myrepo"
      "u1" [1]).2.header "Docker-Distribution-Api-Version" = none ∧
    (PushManifestPut [("v1", Json.null)] "v1" Json.null).2.header
      "X-Content-Type-Options" = none := by
  have h := C6_header_inventory [(sampleDigest, [⟨"layer.tar.gz", [31, 139]⟩])]
    [("v1", Json.null)] "myorg/myrepo" "u1" "v1" sampleDigest [1] Json.null Json.null
    ⟨"layer.tar.gz", [31, 139]⟩ [] [⟨"layer.tar.gz", [31, 139]⟩]
    (by decide) rfl rfl rfl
  obtain ⟨-, -, -, -, h5, -, -, h8, -, h10, -, -, -, -, h15⟩ := h
  exact ⟨rfl, h5, h8, h10, h15⟩

/-- C7 counterexample: a GET of `blobs/notadigest` does not return 400
DIGEST_INVALID — the segment fails the route grammar, so the router
misses and answers 404 with an empty body. -/
theorem C7_counterexample_notadigest_router_404 :
    routeBlobsGet [] "myorg/myrepo" "notadigest" = routerMiss ∧
    (routeBlobsGet [] "myorg/myrepo" "notadigest").status = 404 ∧
    (routeBlobsGet [] "myorg/myrepo" "notadigest").body = [] ∧
    (routeBlobsGet [] "myorg/myrepo" "notadigest").status ≠ 400 :=
  ⟨rfl, rfl, rfl, by decide⟩

/-- C7 amended: a GET whose digest segment fails the route grammar never
reaches the handler — the router answers 404 with an empty body; a 400
DIGEST_INVALID response arises exactly for segments that match the route
grammar but are rejected by go-digest's Parse (for example a hex part of
the wrong length). -/
theorem C7_digest_validation
    (fs : FS) (nm seg : String)
    (hnm : nameGrammar nm = true) :
    (digestGrammar seg = false → routeBlobsGet fs nm seg = routerMiss) ∧
    (digestGrammar seg = true → parseDigest seg = none →
      (routeBlobsGet fs nm seg).status = 400 ∧
      (routeBlobsGet fs nm seg).body = stringBytes "DIGEST_INVALID") := by
  constructor
  · intro hdg
    simp [routeBlobsGet, hnm, hdg]
  · intro hdg hpd
    unfold routeBlobsGet
    simp only [hnm, hdg, Bool.and_self, if_pos]
    unfold PullingBlobs
    rw [hpd]
    exact ⟨rfl, rfl⟩

/-- Witness for C7's amended statement: `notadigest` misses the route,
`sha256:abc` reaches the handler and draws DIGEST_INVALID. -/
theorem C7_digest_validation_witness :
    nameGrammar "myorg/myrepo" = true ∧
    digestGrammar "notadigest" = false ∧
    routeBlobsGet [] "myorg/myrepo" "notadigest" = routerMiss ∧
    digestGrammar "sha256:abc" = true ∧
    parseDigest "sha256:abc" = none ∧
    (routeBlobsGet [] "myorg/myrepo" "sha256:abc").status = 400 ∧
    (routeBlobsGet [] "myorg/myrepo" "sha256:abc").body
      = stringBytes "DIGEST_INVALID" := by
  have h1 := (C7_digest_validation [] "myorg/myrepo" "notadigest" (by decide)).1
    (by decide)
  have h2 := (C7_digest_validation [] "myorg/myrepo" "sha256:abc" (by decide)).2
    (by decide) (by decide)
  exact ⟨by decide, by decide, h1, by decide, by decide, h2.1, h2.2⟩

/-- C8 counterexample: blob GET serves `application/octet-stream`
unconditionally — for a stored non-archive layer (detection stored it as
`layer.json`) the served Content-Type is not the manifest JSON type, so
GET-time Content-Type selection does not agree with PATCH-time detection
in the claimed sense. -/
theorem C8_counterexample_get_serves_octet_stream :
    layerFileName [1, 2, 3] = "layer.json" ∧
    (PullingBlobs [(sampleDigest, [⟨layerFileName [1, 2, 3], [1, 2, 3]⟩])]
      sampleDigest).header "Content-Type" = some "application/octet-stream" ∧
    some "application/octet-stream"
      ≠ some "application/vnd.docker.distribution.manifest.v2+json" :=
  ⟨rfl, rfl, by decide⟩

theorem PullingBlobs_single_ct {fs0 : FS} {dp : String} {e : FileEntry}
    (hparse : parseDigest dp = some dp) :
    (PullingBlobs ((dp, [e]) :: fs0) dp).header "Content-Type"
      = some "application/octet-stream" := by
  unfold PullingBlobs
  rw [hparse]
  by_cases hj : endsWithL e.name.data ".json".data = true <;>
    simp [hj, Outcome.header, render, Response.header]

/-- C8 amended: PATCH-time detection and HEAD-time Content-Type
selection agree — an archive-magic body is stored as `layer.tar.gz` and
HEAD serves the tar.gzip type, any other body is stored as `layer.json`
and HEAD serves the manifest JSON type, exactly as
`PredictDockerContentType` maps a `.json` extension to the JSON type and
every other extension to the tar.gzip type; blob GET, however, always
serves `application/octet-stream`. -/
theorem C8_mediatype_roundtrip
    (fs0 : FS) (dp : String) (B : Bytes)
    (hparse : parseDigest dp = some dp) :
    (PushBlobHead ((dp, [⟨layerFileName B, B⟩]) :: fs0) dp).header "Content-Type"
      = some (if isArchive (bufferRead B) then
                "application/vnd.docker.image.rootfs.diff.tar.gzip"
              else
                "application/vnd.docker.distribution.manifest.v2+json") ∧
    PredictDockerContentType (layerFileName B)
      = (if isArchive (bufferRead B) then
           "application/vnd.docker.image.rootfs.diff.tar.gzip"
         else
           "application/vnd.docker.distribution.manifest.v2+json") ∧
    (PullingBlobs ((dp, [⟨layerFileName B, B⟩]) :: fs0) dp).header "Content-Type"
      = some "application/octet-stream" := by
  have hext : filepathExt (layerFileName B)
      = (if isArchive (bufferRead B) then ".gz" else ".json") := by
    unfold layerFileName detectExt
    cases ha : isArchive (bufferRead B) <;> simp [ha] <;> decide
  refine ⟨?_, ?_, PullingBlobs_single_ct hparse⟩
  · rw [PushBlobHead_single hparse]
    show some _ = _
    rw [hext]
    cases ha : isArchive (bufferRead B) <;> simp
  · unfold PredictDockerContentType
    rw [hext]
    cases ha : isArchive (bufferRead B) <;> simp

/-- Witness for C8's amended statement at an archive body and a
non-archive body. -/
theorem C8_mediatype_roundtrip_witness :
    parseDigest sampleDigest = some sampleDigest ∧
    (PushBlobHead [(sampleDigest, [⟨layerFileName [31, 139, 8, 0], [31, 139, 8, 0]⟩])]
      sampleDigest).header "Content-Type"
      = some "application/vnd.docker.image.rootfs.diff.tar.gzip" ∧
    PredictDockerContentType (layerFileName [1, 2, 3])
      = "application/vnd.docker.distribution.manifest.v2+json" ∧
    (PullingBlobs [(sampleDigest, [⟨layerFileName [1, 2, 3], [1, 2, 3]⟩])]
      sampleDigest).header "Content-Type" = some "application/octet-stream" := by
  have h1 := C8_mediatype_roundtrip [] sampleDigest [31, 139, 8, 0] (by decide)
  have h2 := C8_mediatype_roundtrip [] sampleDigest [1, 2, 3] (by decide)
  exact ⟨by decide, h1.1, h2.2.1, h2.2.2⟩

/-- C9: upload-session, blob and tag directories share one namespace —
for every repository name and string `s` the three computed paths are
the identical string `testdata/name/s`; consequently a PATCH whose
reference equals an existing blob's digest string writes its layer file
into that blob's directory: PATCHing a non-archive body onto a committed
archive blob leaves two files there, violating the at-most-one-file
invariant. -/
theorem C9_shared_namespace
    (name s : String) (fs : FS) (nm dstr : String) (c B : Bytes)
    (hblob : fs.lookup dstr = some [⟨"layer.tar.gz", c⟩])
    (hB : isArchive (bufferRead B) = false) :
    uploadSessionPath name s = blobDirPath name s ∧
    blobDirPath name s = tagDirPath name s ∧
    (PushBlobPatch fs nm dstr B).1.lookup dstr
      = some [⟨"layer.tar.gz", c⟩, ⟨"layer.json", B⟩] := by
  refine ⟨rfl, rfl, ?_⟩
  rw [PushBlobPatch_existing hblob]
  dsimp only
  have hfn : layerFileName B = "layer.json" := by
    simp [layerFileName, detectExt, hB]
  rw [hfn]
  have hw : Dir.write [⟨"layer.tar.gz", c⟩] "layer.json" B
      = [⟨"layer.tar.gz", c⟩, ⟨"layer.json", B⟩] := by
    unfold Dir.write
    rw [if_neg (by simp)]
    rfl
  rw [hw]
  exact FS.lookup_setDir_self hblob

/-- Witness for C9 at a concrete committed blob and non-archive PATCH. -/
theorem C9_shared_namespace_witness :
    FS.lookup [(sampleDigest, [⟨"layer.tar.gz", [31, 139]⟩])] sampleDigest
      = some [⟨"layer.tar.gz", [31, 139]⟩] ∧
    isArchive (bufferRead [1]) = false ∧
    uploadSessionPath "myorg" "x" = blobDirPath "myorg" "x" ∧
    blobDirPath "myorg" "x" = tagDirPath "myorg" "x" ∧
    (PushBlobPatch [(sampleDigest, [⟨"layer.tar.gz", [31, 139]⟩])] "myorg/myrepo"
      sampleDigest [1]).1.lookup sampleDigest
      = some [⟨"layer.tar.gz", [31, 139]⟩, ⟨"layer.json", [1]⟩] := by
  have h := C9_shared_namespace "myorg" "x"
    [(sampleDigest, [⟨"layer.tar.gz", [31, 139]⟩])] "myorg/myrepo" sampleDigest
    [31, 139] [1] rfl (by decide)
  exact ⟨rfl, by decide, h.1, h.2.1, h.2.2⟩

/-- C10: PickupFileinfo errors exactly when the directory is unreadable
or empty, and on any readable nonempty directory it deterministically
returns the entry whose name is lexicographically smallest (ReadDir's
listing is sorted by file name). -/
theorem C10_pickup_fileinfo_min (odir : Option Dir) :
    (PickupFileinfo odir = .error () ↔ (odir = none ∨ odir = some [])) ∧
    (∀ entries fi, odir = some entries → PickupFileinfo odir = .ok fi →
      fi ∈ entries ∧ ∀ e ∈ entries, strLeB fi.name.data e.name.data = true) := by
  constructor
  · cases odir with
    | none => simp [PickupFileinfo]
    | some entries =>
      cases hs : sortDir entries with
      | nil =>
        have h0 : entries = [] := sortDir_eq_nil_iff.mp hs
        subst h0
        simp [PickupFileinfo]
      | cons fi rest =>
        have hne : entries ≠ [] := by
          intro h0
          subst h0
          simp at hs
        simp [PickupFileinfo, hs, hne]
  · intro entries fi heq hok
    subst heq
    cases hs : sortDir entries with
    | nil =>
      simp only [PickupFileinfo, hs] at hok
      cases hok
    | cons fi' rest =>
      simp only [PickupFileinfo, hs] at hok
      cases hok
      exact sortDir_head_min hs

/-- Witness for C10 on a two-file directory listed out of order, and on
an empty directory. -/
theorem C10_pickup_fileinfo_min_witness :
    PickupFileinfo (some [⟨"b.json", [2]⟩, ⟨"a.json", [1]⟩])
      = .ok ⟨"a.json", [1]⟩ ∧
    (⟨"a.json", [1]⟩ : FileEntry) ∈ [⟨"b.json", [2]⟩, ⟨"a.json", [1]⟩] ∧
    (∀ e ∈ [(⟨"b.json", [2]⟩ : FileEntry), ⟨"a.json", [1]⟩],
      strLeB "a.json".data e.name.data = true) ∧
    PickupFileinfo (some ([] : Dir)) = .error () := by
  have h := (C10_pickup_fileinfo_min (some [⟨"b.json", [2]⟩, ⟨"a.json", [1]⟩])).2
    [⟨"b.json", [2]⟩, ⟨"a.json", [1]⟩] ⟨"a.json", [1]⟩ rfl rfl
  have h2 := (C10_pickup_fileinfo_min (some ([] : Dir))).1.mpr (Or.inr rfl)
  exact ⟨rfl, h.1, h.2, h2⟩

end CR
